import Mathlib

/-!
Shallow embedding of the HOGBEN design-search core: the grid-search drivers of
`hogben/visualise.py` and the `Sample` operations of `hogben/models/samples.py`.

Floats are modelled as rationals; numpy arrays as lists.  Collaborators that
live outside the verified sources (the measurement simulator, the Fisher
eigenvalue computation, the plotting layer) are passed in as function
parameters, exactly at the call sites where the Python code invokes them.
-/

/-- One `(angle, points, time)` tuple of an `angle_times` measurement plan, as
built on line 68 of `visualise.py`. -/
structure AngleConfig where
  angle : ℚ
  points : ℕ
  time : ℚ
deriving DecidableEq, Repr

/-- Part of a Fisher information object that the search drivers consume: the
`min_eigenval` scalar read on lines 72, 255, 302 and 389 of `visualise.py`
(the full `hogben.utils.Fisher` class is an external collaborator there). -/
structure FisherResult where
  min_eigenval : ℚ
deriving DecidableEq, Repr

/-- Python exceptions raised on the modelled code paths: a failed `assert`
raises `AssertionError`, `np.argmax` of an empty sequence raises `ValueError`,
and `samples.py` raises `RuntimeError('invalid structure given')`.  The error
classes named by the specification (`UnsupportedOperationError`,
`ConfigurationError`) are included as distinct values so that statements can
compare what the code raises against what the specification claims. -/
inductive PyError where
  | assertionError
  | valueError
  | runtimeError (msg : String)
  | unsupportedOperationError
  | configurationError
deriving DecidableEq, Repr

/-- Behaviour of `np.argmax` on a list: the index of the first occurrence of
the maximum (numpy documents first-occurrence tie-breaking).  The empty case
is handled at each call site, where the drivers model numpy's `ValueError`. -/
def argmaxList : List ℚ → ℕ
  | [] => 0
  | a :: rest =>
    let j := argmaxList rest
    if a < rest.getD j a then j + 1 else 0

/-- Predicate: `k` is the index of the first occurrence of the maximum of
`l`. -/
def IsFirstArgmax (l : List ℚ) (k : ℕ) : Prop :=
  k < l.length ∧ (∀ i, i < l.length → l.getD i 0 ≤ l.getD k 0) ∧
    ∀ i, i < k → l.getD i 0 < l.getD k 0

/-- Plan evaluated per candidate angle:
`new_angle_times = initial_angle_times + [(angle_new, points_new, time_new)]`
(line 67 of `visualise.py`). -/
def new_angle_times (initial_angle_times : List AngleConfig) (points_new : ℕ)
    (time_new : ℚ) (angle_new : ℚ) : List AngleConfig :=
  initial_angle_times ++ [⟨angle_new, points_new, time_new⟩]

/-- Scalar recorded for one candidate angle: the loop body of `angle_choice`
(lines 66-72 of `visualise.py`),
`sample.angle_info(new_angle_times, contrasts).min_eigenval`. -/
def angle_scalar (angle_info : List AngleConfig → List ℚ → FisherResult)
    (initial_angle_times : List AngleConfig) (points_new : ℕ) (time_new : ℚ)
    (contrasts : List ℚ) (angle_new : ℚ) : ℚ :=
  (angle_info (new_angle_times initial_angle_times points_new time_new angle_new)
    contrasts).min_eigenval

/-- List `min_eigs` accumulated by the candidate loop of `angle_choice`
(lines 59-72 of `visualise.py`): one scalar per candidate angle, in scan
order. -/
def angle_scan_eigs (angle_info : List AngleConfig → List ℚ → FisherResult)
    (initial_angle_times : List AngleConfig) (points_new : ℕ) (time_new : ℚ)
    (contrasts : List ℚ) (angle_range : List ℚ) : List ℚ :=
  angle_range.map
    (angle_scalar angle_info initial_angle_times points_new time_new contrasts)

/-- Function `angle_choice` (lines 26-86 of `visualise.py`).  The sample is
represented by its `VariableAngle` capability flag and its `angle_info`
method.  The result carries the plotted `min_eigs` data together with the
Python return value `angle_range[np.argmax(min_eigs)]`. -/
def angle_choice (is_variable_angle : Bool)
    (angle_info : List AngleConfig → List ℚ → FisherResult)
    (initial_angle_times : List AngleConfig) (angle_range : List ℚ)
    (points_new : ℕ) (time_new : ℚ) (contrasts : Option (List ℚ)) :
    Except PyError (List ℚ × ℚ) :=
  if is_variable_angle then
    let cs := contrasts.getD []
    let min_eigs :=
      angle_scan_eigs angle_info initial_angle_times points_new time_new cs
        angle_range
    if min_eigs.isEmpty then .error .valueError
    else .ok (min_eigs, angle_range.getD (argmaxList min_eigs) 0)
  else .error .assertionError

/-- Contrast list evaluated per candidate in `contrast_choice_single`:
`new_contrast = initial_contrasts + [new_contrast]` (line 253 of
`visualise.py`). -/
def new_contrasts (initial_contrasts : List ℚ) (new_contrast : ℚ) : List ℚ :=
  initial_contrasts ++ [new_contrast]

/-- List `min_eigs` accumulated by the candidate loop of
`contrast_choice_single` (lines 244-255 of `visualise.py`). -/
def contrast_scan_eigs (contrast_info : List AngleConfig → List ℚ → FisherResult)
    (angle_times : List AngleConfig) (initial_contrasts : List ℚ)
    (contrast_range : List ℚ) : List ℚ :=
  contrast_range.map fun c =>
    (contrast_info angle_times (new_contrasts initial_contrasts c)).min_eigenval

/-- Function `contrast_choice_single` (lines 219-270 of `visualise.py`). -/
def contrast_choice_single (is_variable_contrast : Bool)
    (contrast_info : List AngleConfig → List ℚ → FisherResult)
    (contrast_range : List ℚ) (initial_contrasts : List ℚ)
    (angle_times : List AngleConfig) : Except PyError (List ℚ × ℚ) :=
  if is_variable_contrast then
    let min_eigs :=
      contrast_scan_eigs contrast_info angle_times initial_contrasts
        contrast_range
    if min_eigs.isEmpty then .error .valueError
    else .ok (min_eigs, contrast_range.getD (argmaxList min_eigs) 0)
  else .error .assertionError

/-- Enumeration `itertools.combinations(l, 2)` in its emission order, as used
on line 291 of `visualise.py`. -/
def combinations2 : List ℚ → List (ℚ × ℚ)
  | [] => []
  | a :: rest => rest.map (fun b => (a, b)) ++ combinations2 rest

/-- Function `contrast_choice_double` (lines 273-345 of `visualise.py`):
evaluates each pair from `combinations(contrast_range, 2)`, duplicates the
data with the coordinates swapped for the surface plot, and returns
`(x[np.argmax(min_eigs)], y[np.argmax(min_eigs)])` over the duplicated
lists. -/
def contrast_choice_double (is_variable_contrast : Bool)
    (contrast_info : List AngleConfig → List ℚ → FisherResult)
    (contrast_range : List ℚ) (angle_times : List AngleConfig) :
    Except PyError (ℚ × ℚ) :=
  if is_variable_contrast then
    let contrasts := combinations2 contrast_range
    let min_eigs := contrasts.map fun pair =>
      (contrast_info angle_times [pair.1, pair.2]).min_eigenval
    let x := contrasts.map Prod.fst ++ contrasts.map Prod.snd
    let y := contrasts.map Prod.snd ++ contrasts.map Prod.fst
    let doubled := min_eigs ++ min_eigs
    if doubled.isEmpty then .error .valueError
    else
      let maximum := argmaxList doubled
      .ok (x.getD maximum 0, y.getD maximum 0)
  else .error .assertionError

/-- Modelled from the spec: `contrast_info` of `BaseLipid`
(`hogben/models/base.py`, which is not under `src/`).  Following section 4.1,
the Fisher matrix of each independently simulated contrast dataset is summed
into one combined matrix, and following sections 4.2 and 6 the returned object
exposes the minimum eigenvalue of that combined matrix.  Here `contribution c`
is the Fisher matrix contributed by the dataset simulated for contrast `c`
under the fixed `angle_times` plan (the plan is absorbed into `contribution`),
and `min_eig` is the eigenvalue reduction. -/
def contrast_info_spec {M : Type} [AddCommMonoid M]
    (contribution : ℚ → M) (min_eig : M → ℚ)
    (_angle_times : List AngleConfig) (contrast_values : List ℚ) :
    FisherResult :=
  ⟨min_eig (contrast_values.map contribution).sum⟩

/-- Iteration order of the nested loops of `underlayer_choice` (lines 379-391
of `visualise.py`): thickness outer, SLD inner. -/
def underlayer_grid (thickness_range sld_range : List ℚ) : List (ℚ × ℚ) :=
  thickness_range.flatMap fun thick => sld_range.map fun sld => (thick, sld)

/-- Function `underlayer_choice` (lines 348-428 of `visualise.py`): evaluates
`sample.underlayer_info(angle_times, contrasts, [(thick, sld)])` at every
combination of the two ranges and returns
`(x[np.argmax(min_eigs)], y[np.argmax(min_eigs)])`. -/
def underlayer_choice (is_variable_underlayer : Bool)
    (underlayer_info : List AngleConfig → List ℚ → List (ℚ × ℚ) → FisherResult)
    (thickness_range sld_range : List ℚ) (contrasts : List ℚ)
    (angle_times : List AngleConfig) : Except PyError (ℚ × ℚ) :=
  if is_variable_underlayer then
    let grid := underlayer_grid thickness_range sld_range
    let min_eigs := grid.map fun p =>
      (underlayer_info angle_times contrasts [p]).min_eigenval
    let x := grid.map Prod.fst
    let y := grid.map Prod.snd
    if min_eigs.isEmpty then .error .valueError
    else
      let maximum := argmaxList min_eigs
      .ok (x.getD maximum 0, y.getD maximum 0)
  else .error .assertionError

/-- Values of `np.linspace(lb, ub, n)`. -/
def linspace (lb ub : ℚ) (n : ℕ) : List ℚ :=
  (List.range n).map fun i => lb + i * (ub - lb) / ((n : ℚ) - 1)

/-- View of a refnx `Parameter` as used by `scan_parameters`: an identifier
into the sample's shared mutable value store, plus the `bounds.lb` and
`bounds.ub` read on line 105 of `visualise.py`. -/
structure ParamSpec where
  id : ℕ
  lb : ℚ
  ub : ℚ
deriving DecidableEq, Repr

/-- Body of the inner `for value in param_range` loop of `scan_parameters`
(lines 109-112 of `visualise.py`): mutate `param.value = value`, then append
`Fisher.from_sample(sample, angle_times).min_eigenval` evaluated on the
mutated store. -/
def scan_step (fisher_min_eig : (ℕ → ℚ) → ℚ) (i : ℕ)
    (acc : List ℚ × (ℕ → ℚ)) (value : ℚ) : List ℚ × (ℕ → ℚ) :=
  let s := Function.update acc.2 i value
  (acc.1 ++ [fisher_min_eig s], s)

/-- Body of the outer `for param in params` loop of `scan_parameters`
(lines 104-115 of `visualise.py`) for one parameter: record `old_value`,
sweep the parameter's value over `np.linspace(lb, ub, 100)` collecting
eigenvalues, then restore `param.value = old_value`.  The sample's parameter
values form the store `ℕ → ℚ`; `fisher_min_eig` abstracts the collaborator
`Fisher.from_sample(sample, angle_times).min_eigenval` (`hogben/utils.py`) as
a function of that store, with `angle_times` fixed throughout the call. -/
def scan_one_param (fisher_min_eig : (ℕ → ℚ) → ℚ) (p : ParamSpec)
    (store : ℕ → ℚ) : (List ℚ × List ℚ) × (ℕ → ℚ) :=
  let old_value := store p.id
  let param_range := linspace p.lb p.ub 100
  let res := param_range.foldl (scan_step fisher_min_eig p.id) ([], store)
  ((param_range, res.1), Function.update res.2 p.id old_value)

/-- Function `scan_parameters` (lines 89-115 of `visualise.py`), through the
loop that fills `param_values` and `eigenval_list`; the result carries those
two lists together with the final parameter store (the plotting tail of the
Python function only reads the lists). -/
def scan_parameters (fisher_min_eig : (ℕ → ℚ) → ℚ) (params : List ParamSpec)
    (store : ℕ → ℚ) : (List (List ℚ) × List (List ℚ)) × (ℕ → ℚ) :=
  params.foldl
    (fun acc p =>
      let r := scan_one_param fisher_min_eig p acc.2
      ((acc.1.1 ++ [r.1.1], acc.1.2 ++ [r.1.2]), r.2))
    (([], []), store)

/-- Fields of a refnx `Slab` component that `samples.py` reads: `name`,
`sld.real.value`, `sld.imag.value`, `thick.value` and `rough.value`. -/
structure SlabFields where
  name : String
  sldReal : ℚ
  sldImag : ℚ
  thick : ℚ
  rough : ℚ
deriving DecidableEq, Repr

/-- Component of a refnx structure: a plain slab, or a `MagneticLayer`
(lines 40-73 of `samples.py`), a `Slab` subclass whose nuclear SLD is
`SLD_n = density * SL` and whose magnetic SLD is
`SLD_m = 0.1 * density * mag`. -/
inductive RefnxLayer where
  | slab (f : SlabFields)
  | magnetic (SL density mag thick rough : ℚ) (name : String)
deriving DecidableEq, Repr

/-- Accessor for `component.name`. -/
def RefnxLayer.name : RefnxLayer → String
  | .slab f => f.name
  | .magnetic _ _ _ _ _ n => n

/-- Accessor for `component.sld.real.value` (for a `MagneticLayer` the slab
was constructed with `sld=self.SLD_n`). -/
def RefnxLayer.sldReal : RefnxLayer → ℚ
  | .slab f => f.sldReal
  | .magnetic SL density _ _ _ _ => density * SL

/-- Accessor for `component.sld.imag.value`. -/
def RefnxLayer.sldImag : RefnxLayer → ℚ
  | .slab f => f.sldImag
  | .magnetic _ _ _ _ _ _ => 0

/-- Accessor for `component.thick.value`. -/
def RefnxLayer.thick : RefnxLayer → ℚ
  | .slab f => f.thick
  | .magnetic _ _ _ t _ _ => t

/-- Accessor for `component.rough.value`. -/
def RefnxLayer.rough : RefnxLayer → ℚ
  | .slab f => f.rough
  | .magnetic _ _ _ _ r _ => r

/-- Test `isinstance(layer, MagneticLayer)` (line 110 of `samples.py`). -/
def RefnxLayer.isMagnetic : RefnxLayer → Bool
  | .magnetic _ _ _ _ _ _ => true
  | .slab _ => false

/-- Property `MagneticLayer.spin_up` (lines 65-68 of `samples.py`): a slab of
SLD `SLD_n + SLD_m` with the layer's thickness and roughness. -/
def RefnxLayer.spin_up : RefnxLayer → RefnxLayer
  | .magnetic SL density mag thick rough _ =>
    .slab ⟨"spin_up", density * SL + 1 / 10 * density * mag, 0, thick, rough⟩
  | l => l

/-- Property `MagneticLayer.spin_down` (lines 70-73 of `samples.py`): a slab
of SLD `SLD_n - SLD_m` with the layer's thickness and roughness. -/
def RefnxLayer.spin_down : RefnxLayer → RefnxLayer
  | .magnetic SL density mag thick rough _ =>
    .slab ⟨"spin_down", density * SL - 1 / 10 * density * mag, 0, thick, rough⟩
  | l => l

/-- Copy of the wrapped structure in which the loop of `get_structures`
(lines 109-112 of `samples.py`) has replaced every `MagneticLayer` by its
`spin_up` slab; other layers are untouched. -/
def spin_up_structure (layers : List RefnxLayer) : List RefnxLayer :=
  layers.map fun l => if l.isMagnetic then l.spin_up else l

/-- Copy of the wrapped structure in which the loop of `get_structures` has
replaced every `MagneticLayer` by its `spin_down` slab. -/
def spin_down_structure (layers : List RefnxLayer) : List RefnxLayer :=
  layers.map fun l => if l.isMagnetic then l.spin_down else l

/-- Method `Sample.get_structures` (lines 102-118 of `samples.py`): extend an
empty accumulator with the spin-up and spin-down copies, then fall back to
`[self.structure]` only if the accumulator is still empty. -/
def Sample.get_structures (layers : List RefnxLayer) : List (List RefnxLayer) :=
  let structures : List (List RefnxLayer) :=
    [] ++ [spin_up_structure layers, spin_down_structure layers]
  if structures.length = 0 then [layers] else structures

/-- Component of a Refl1D stack: the fields read by `samples.py` are `name`,
`material.rho.value`, `material.irho.value`, `thickness.value` and
`interface.value`. -/
structure Refl1dLayer where
  name : String
  rho : ℚ
  irho : ℚ
  thickness : ℚ
  interface : ℚ
deriving DecidableEq, Repr

/-- Argument of the structure-consuming `Sample` methods: a refnx
`Structure`, a Refl1D `Stack`, or any other Python object (such as the
`Mock(spec=None)` objects used by `tests/test_samples.py`). -/
inductive PyStructure where
  | refnx (layers : List RefnxLayer)
  | refl1d (layers : List Refl1dLayer)
  | other
deriving DecidableEq, Repr

/-- Varying parameter produced by `Sample.__vary_structure`: current value,
bounds, and vary flag after `setp(vary=True, bounds=...)` respectively
`pmp(bound_size * 100)`. -/
structure VaryParam where
  value : ℚ
  lb : ℚ
  ub : ℚ
  vary : Bool
deriving DecidableEq, Repr

/-- Slice `structure[1:-1]` over the components of a structure. -/
def inner_layers {α : Type} (layers : List α) : List α :=
  (layers.drop 1).dropLast

/-- Static method `Sample.__vary_structure` (lines 133-183 of `samples.py`):
for a refnx structure or a Refl1D stack, collect the SLD and thickness
parameter of each interior layer with relative bounds of size `bound_size`
(the Python default is `0.2`); for any other input raise
`RuntimeError('invalid structure given')`. -/
def Sample.vary_structure (struct : PyStructure) (bound_size : ℚ) :
    Except PyError (List VaryParam) :=
  match struct with
  | .refnx layers =>
    .ok <| (inner_layers layers).flatMap fun c =>
      [⟨c.sldReal, c.sldReal * (1 - bound_size), c.sldReal * (1 + bound_size),
        true⟩,
       ⟨c.thick, c.thick * (1 - bound_size), c.thick * (1 + bound_size),
        true⟩]
  | .refl1d layers =>
    .ok <| (inner_layers layers).flatMap fun c =>
      [⟨c.rho, c.rho * (1 - bound_size), c.rho * (1 + bound_size), true⟩,
       ⟨c.thickness, c.thickness * (1 - bound_size),
        c.thickness * (1 + bound_size), true⟩]
  | .other => .error (.runtimeError "invalid structure given")

/-- Method `Sample._get_sld_profile` (lines 228-248 of `samples.py`): for a
refnx structure delegate to `structure.sld_profile()`, for a Refl1D stack to
`refl1d_experiment(...).smooth_profile()` (both collaborators live outside
the verified sources and are passed in); otherwise raise
`RuntimeError('invalid structure given')`. -/
def Sample.get_sld_profile
    (refnx_sld_profile : List RefnxLayer → List ℚ × List ℚ)
    (refl1d_smooth_profile : List Refl1dLayer → List ℚ × List ℚ)
    (struct : PyStructure) : Except PyError (List ℚ × List ℚ) :=
  match struct with
  | .refnx layers => .ok (refnx_sld_profile layers)
  | .refl1d layers => .ok (refl1d_smooth_profile layers)
  | .other => .error (.runtimeError "invalid structure given")

/-- Method `Sample._get_reflectivity_profile` (lines 292-318 of
`samples.py`): build the Q grid, construct the backend model for a refnx
input or a Refl1D stack (model construction, `np.geomspace` and
`reflectivity` are external collaborators), and otherwise raise
`RuntimeError('invalid structure given')`. -/
def Sample.get_reflectivity_profile {ModelT : Type}
    (geomspace : ℚ → ℚ → ℕ → List ℚ)
    (refnx_reflect_model : List RefnxLayer → ℚ → ℚ → ℚ → ModelT)
    (refl1d_experiment : List Refl1dLayer → List ℚ → ℚ → ℚ → ℚ → ModelT)
    (reflectivity : List ℚ → ModelT → List ℚ)
    (struct : PyStructure) (q_min q_max : ℚ) (points : ℕ)
    (scale bkg dq : ℚ) : Except PyError (List ℚ × List ℚ) :=
  let q := geomspace q_min q_max points
  match struct with
  | .refnx layers =>
    let model := refnx_reflect_model layers scale bkg dq
    .ok (q, reflectivity q model)
  | .refl1d layers =>
    let model := refl1d_experiment layers q scale bkg dq
    .ok (q, reflectivity q model)
  | .other => .error (.runtimeError "invalid structure given")

/-- Conversion applied to one refnx component by `Sample.to_refl1d`
(lines 368-375 of `samples.py`). -/
def refl1d_of_refnx (c : RefnxLayer) : Refl1dLayer :=
  ⟨c.name, c.sldReal, c.sldImag, c.thick, c.rough⟩

/-- Conversion applied to one Refl1D component by `Sample.to_refnx`
(lines 390-399 of `samples.py`). -/
def refnx_of_refl1d (c : Refl1dLayer) : RefnxLayer :=
  .slab ⟨c.name, c.rho, c.irho, c.thickness, c.interface⟩

/-- Value of `self.structure` after `to_refl1d`: building with the Refl1D
`|` operator yields a `Stack` once at least one converted layer has been
prepended, but with no components the initial bare
`refl1d.material.SLD(rho=0, name='Air')` material is left as is — a
`Material`, not a `Stack`. -/
inductive Refl1dStructure where
  | material (m : Refl1dLayer)
  | stack (layers : List Refl1dLayer)
deriving DecidableEq, Repr

/-- One step `structure = layer | structure` of `to_refl1d` (line 376 of
`samples.py`): prepend the converted slab to the growing Refl1D structure;
prepending to the bare material creates a two-element stack. -/
def refl1d_stack_step (struct : Refl1dStructure) (c : RefnxLayer) :
    Refl1dStructure :=
  match struct with
  | .material m => .stack [refl1d_of_refnx c, m]
  | .stack s => .stack (refl1d_of_refnx c :: s)

/-- Method `Sample.to_refl1d` (lines 360-380 of `samples.py`) acting on the
wrapped refnx layers: start from the bare `Air` material (`rho=0`) and
prepend each converted component (`structure = layer | structure`).  With at
least one component the result is a stack holding the reverse of the refnx
order with `Air` last; with no component it stays the bare material. -/
def Sample.to_refl1d (layers : List RefnxLayer) : Refl1dStructure :=
  (layers.drop 1).foldl refl1d_stack_step (.material ⟨"Air", 0, 0, 0, 0⟩)

/-- Success branch of `Sample.to_refnx` (lines 387-403 of `samples.py`):
reverse the Refl1D stack, skip its first element (the `Air` material), and
append each converted component to a fresh refnx structure fronted by
`SLD(0, name='Air')`. -/
def to_refnx_stack (stack : List Refl1dLayer) : List RefnxLayer :=
  (stack.reverse.drop 1).foldl
    (fun struct c =>
      struct ++ [.slab ⟨c.name, c.rho, c.irho, c.thickness, c.interface⟩])
    [.slab ⟨"Air", 0, 0, 0, 0⟩]

/-- Method `Sample.to_refnx` (lines 382-403 of `samples.py`): the method
first runs `assert isinstance(self.structure, refl1d.model.Stack)`
(line 385), so on a bare material it raises `AssertionError`; on a stack it
performs the conversion. -/
def Sample.to_refnx (struct : Refl1dStructure) :
    Except PyError (List RefnxLayer) :=
  match struct with
  | .material _ => .error .assertionError
  | .stack s => .ok (to_refnx_stack s)

/-- Row of the `data` array returned by `hogben.simulate.simulate`: columns
Q, R, dR and counts; `angle_info` reads columns 0 and 3. -/
structure DataRow where
  q : ℚ
  r : ℚ
  dr : ℚ
  counts : ℚ
deriving DecidableEq, Repr

/-- Modelled from the spec: the constructor of `hogben.utils.Fisher`
(`hogben/utils.py` is not under `src/`).  Following sections 4.1 and 6 of the
specification, a Fisher information object is built from one or more
datasets (their Q grids and expected counts), the ordered list of varying
parameters, and the per-dataset models; the constructor records exactly
these inputs. -/
structure Fisher (ModelT ParamT : Type) where
  qs : List (List ℚ)
  params : List ParamT
  counts : List (List ℚ)
  models : List ModelT

/-- Method `Sample.angle_info` (lines 185-199 of `samples.py`): simulate
the structure under `angle_times`, then build
`Fisher([data[:, 0]], self.params, [data[:, 3]], [model])`.  The collaborator
`simulate` (`hogben/simulate.py`) is outside the verified sources and passed
in.  Modelled from the spec: `self.params`, the sample's ordered varying
parameters, is supplied by `BaseSample` (`hogben/models/base.py`, not under
`src/`; the local assignment in `Sample.__init__` is commented out on line
100), so it is passed here as the `sample_params` argument. -/
def Sample.angle_info {ModelT ParamT StructureT : Type}
    (simulate : StructureT → List AngleConfig → ModelT × List DataRow)
    (struct : StructureT) (sample_params : List ParamT)
    (angle_times : List AngleConfig) (_contrasts : List ℚ) :
    Fisher ModelT ParamT :=
  let md := simulate struct angle_times
  { qs := [md.2.map DataRow.q]
    params := sample_params
    counts := [md.2.map DataRow.counts]
    models := [md.1] }

/-- Sample `angle_info` used to instantiate witnesses: the minimum eigenvalue
is abstracted by the sum of the plan's angles. -/
def angle_info_w : List AngleConfig → List ℚ → FisherResult :=
  fun plan _ => ⟨(plan.map AngleConfig.angle).sum⟩

/-- Sample `underlayer_info` used to instantiate witnesses: the minimum
eigenvalue is abstracted by the sum of thickness plus SLD over the probed
underlayers. -/
def underlayer_info_w :
    List AngleConfig → List ℚ → List (ℚ × ℚ) → FisherResult :=
  fun _ _ us => ⟨(us.map fun u => u.1 + u.2).sum⟩

/-! ## Helper lemmas -/

/-- Reading a mapped list through `getD` at an in-bounds index. -/
theorem getD_map_eq {α β : Type} (f : α → β) (l : List α) (i : ℕ) (d : β)
    (h : i < l.length) : (l.map f).getD i d = f (l.get ⟨i, h⟩) := by
  rw [List.getD_eq_getElem _ _ (by simpa using h)]
  simp

/-- Unfolding equation of `argmaxList` on a cons cell. -/
theorem argmaxList_cons (a : ℚ) (rest : List ℚ) :
    argmaxList (a :: rest)
      = if a < rest.getD (argmaxList rest) a then argmaxList rest + 1 else 0 :=
  rfl

/-- The index returned by `argmaxList` is the first occurrence of the
maximum. -/
theorem isFirstArgmax_argmaxList (l : List ℚ) (h : l ≠ []) :
    IsFirstArgmax l (argmaxList l) := by
  induction l with
  | nil => exact absurd rfl h
  | cons a rest ih =>
    by_cases hr : rest = []
    · subst hr
      refine ⟨by simp [argmaxList], ?_, ?_⟩
      · intro i hi
        simp only [List.length_cons, List.length_nil] at hi
        interval_cases i
        simp [argmaxList]
      · intro i hi
        simp [argmaxList] at hi
    · obtain ⟨hjlt, hmax, hfirst⟩ := ih hr
      have hgd : rest.getD (argmaxList rest) a
          = rest.getD (argmaxList rest) 0 := by
        rw [List.getD_eq_getElem rest a hjlt, List.getD_eq_getElem rest 0 hjlt]
      by_cases hc : a < rest.getD (argmaxList rest) a
      · rw [argmaxList_cons, if_pos hc]
        refine ⟨by simpa using Nat.succ_lt_succ hjlt, ?_, ?_⟩
        · intro i hi
          rw [List.getD_cons_succ]
          match i with
          | 0 =>
            rw [List.getD_cons_zero]
            exact le_of_lt (hgd ▸ hc)
          | i + 1 =>
            rw [List.getD_cons_succ]
            exact hmax i (by simpa using hi)
        · intro i hi
          rw [List.getD_cons_succ]
          match i with
          | 0 =>
            rw [List.getD_cons_zero]
            exact hgd ▸ hc
          | i + 1 =>
            rw [List.getD_cons_succ]
            exact hfirst i (by omega)
      · rw [argmaxList_cons, if_neg hc]
        refine ⟨by simp, ?_, ?_⟩
        · intro i hi
          rw [List.getD_cons_zero]
          match i with
          | 0 => rw [List.getD_cons_zero]
          | i + 1 =>
            rw [List.getD_cons_succ]
            exact le_trans (hmax i (by simpa using hi)) (hgd ▸ le_of_not_lt hc)
        · intro i hi
          omega
  
/-- First-occurrence argmax indices are unique. -/
theorem isFirstArgmax_unique {l : List ℚ} {k1 k2 : ℕ}
    (h1 : IsFirstArgmax l k1) (h2 : IsFirstArgmax l k2) : k1 = k2 := by
  obtain ⟨hk1, hmax1, hfirst1⟩ := h1
  obtain ⟨hk2, hmax2, hfirst2⟩ := h2
  rcases lt_trichotomy k1 k2 with h | h | h
  · exact absurd (hmax1 k2 hk2) (not_le_of_lt (hfirst2 k1 h))
  · exact h
  · exact absurd (hmax2 k1 hk1) (not_le_of_lt (hfirst1 k2 h))

/-- The first argmax of a list is also the first argmax of the list
concatenated with itself. -/
theorem isFirstArgmax_append_self {l : List ℚ} {k : ℕ}
    (h : IsFirstArgmax l k) : IsFirstArgmax (l ++ l) k := by
  obtain ⟨hk, hmax, hfirst⟩ := h
  refine ⟨by simp; omega, ?_, ?_⟩
  · intro i hi
    rw [List.getD_append _ _ _ _ hk]
    by_cases hil : i < l.length
    · rw [List.getD_append _ _ _ _ hil]
      exact hmax i hil
    · rw [List.getD_append_right _ _ _ _ (le_of_not_lt hil)]
      apply hmax
      simp only [List.length_append] at hi
      omega
  · intro i hi
    rw [List.getD_append _ _ _ _ hk, List.getD_append _ _ _ _ (lt_trans hi hk)]
    exact hfirst i hi

/-- Duplicating the scalar list does not move the argmax. -/
theorem argmaxList_append_self {l : List ℚ} (h : l ≠ []) :
    argmaxList (l ++ l) = argmaxList l :=
  isFirstArgmax_unique
    (isFirstArgmax_argmaxList (l ++ l) (by simpa using h))
    (isFirstArgmax_append_self (isFirstArgmax_argmaxList l h))

/-! ## Claim theorems -/

/-- C1: for a non-empty candidate angle range, `angle_choice` evaluates each
candidate in scan order (the returned `min_eigs` data is the ordered map of
the per-candidate scalar over the range), and the returned angle is a member
of the range whose scalar is greater than or equal to that of every other
candidate; among several maximisers the first occurrence in scan order is
returned. -/
theorem angle_choice_max_min_eig
    (angle_info : List AngleConfig → List ℚ → FisherResult)
    (initial_angle_times : List AngleConfig) (angle_range : List ℚ)
    (points_new : ℕ) (time_new : ℚ) (contrasts : Option (List ℚ))
    (hne : angle_range ≠ []) :
    ∃ k, ∃ hk : k < angle_range.length,
      angle_choice true angle_info initial_angle_times angle_range points_new
          time_new contrasts
        = .ok (angle_scan_eigs angle_info initial_angle_times points_new
            time_new (contrasts.getD []) angle_range,
            angle_range.get ⟨k, hk⟩) ∧
      angle_range.get ⟨k, hk⟩ ∈ angle_range ∧
      (∀ a ∈ angle_range,
        angle_scalar angle_info initial_angle_times points_new time_new
            (contrasts.getD []) a
          ≤ angle_scalar angle_info initial_angle_times points_new time_new
              (contrasts.getD []) (angle_range.get ⟨k, hk⟩)) ∧
      ∀ i, ∀ hi : i < k,
        angle_scalar angle_info initial_angle_times points_new time_new
            (contrasts.getD []) (angle_range.get ⟨i, hi.trans hk⟩)
          < angle_scalar angle_info initial_angle_times points_new time_new
              (contrasts.getD []) (angle_range.get ⟨k, hk⟩) := by
  set cs := contrasts.getD [] with hcs
  set scal := angle_scalar angle_info initial_angle_times points_new time_new
    cs with hscal
  set eigs := angle_scan_eigs angle_info initial_angle_times points_new
    time_new cs angle_range with heigs
  have heq : eigs = angle_range.map scal := rfl
  have hlen : eigs.length = angle_range.length := by
    rw [heq, List.length_map]
  have hene : eigs ≠ [] := by
    intro h0
    exact hne (by simpa [h0] using hlen.symm)
  obtain ⟨hk, hmax, hfirst⟩ := isFirstArgmax_argmaxList eigs hene
  have hgd : ∀ i, ∀ hi : i < angle_range.length,
      eigs.getD i 0 = scal (angle_range.get ⟨i, hi⟩) := by
    intro i hi
    rw [heq, getD_map_eq scal angle_range i 0 hi]
  have hklt : argmaxList eigs < angle_range.length := by
    rw [← hlen]; exact hk
  refine ⟨argmaxList eigs, hklt, ?_, List.get_mem _ _ _, ?_, ?_⟩
  · show angle_choice true angle_info initial_angle_times angle_range
        points_new time_new contrasts = _
    rw [angle_choice]
    simp only [if_true]
    rw [if_neg (by simpa [List.isEmpty_iff] using hene)]
    rw [List.getD_eq_getElem angle_range 0 hklt]
    rfl
  · intro a ha
    obtain ⟨i, hi, rfl⟩ := List.mem_iff_get.mp ha
    have h1 := hmax i.1 (by rw [hlen]; exact i.2)
    rw [hgd i.1 i.2, hgd (argmaxList eigs) hklt] at h1
    exact h1
  · intro i hi
    have h1 := hfirst i hi
    rw [hgd i (hi.trans hklt), hgd (argmaxList eigs) hklt] at h1
    exact h1

/-- C1 witness: the theorem applied to a concrete three-angle range. -/
theorem angle_choice_max_min_eig_witness :
    ([1, 3, 2] : List ℚ) ≠ [] ∧
    (∃ k, ∃ hk : k < ([1, 3, 2] : List ℚ).length,
      angle_choice true angle_info_w [] [1, 3, 2] 100 500 none
        = .ok (angle_scan_eigs angle_info_w [] 100 500 ((none : Option (List ℚ)).getD []) [1, 3, 2],
            ([1, 3, 2] : List ℚ).get ⟨k, hk⟩) ∧
      ([1, 3, 2] : List ℚ).get ⟨k, hk⟩ ∈ ([1, 3, 2] : List ℚ) ∧
      (∀ a ∈ ([1, 3, 2] : List ℚ),
        angle_scalar angle_info_w [] 100 500 ((none : Option (List ℚ)).getD []) a
          ≤ angle_scalar angle_info_w [] 100 500 ((none : Option (List ℚ)).getD [])
              (([1, 3, 2] : List ℚ).get ⟨k, hk⟩)) ∧
      ∀ i, ∀ hi : i < k,
        angle_scalar angle_info_w [] 100 500 ((none : Option (List ℚ)).getD [])
            (([1, 3, 2] : List ℚ).get ⟨i, hi.trans hk⟩)
          < angle_scalar angle_info_w [] 100 500 ((none : Option (List ℚ)).getD [])
              (([1, 3, 2] : List ℚ).get ⟨k, hk⟩)) :=
  ⟨by decide,
   angle_choice_max_min_eig angle_info_w [] [1, 3, 2] 100 500 none (by decide)⟩

/-- C2 counterexample: on a sample lacking the `VariableAngle` capability the
driver fails with `AssertionError` (the failed `assert isinstance` on line 54
of `visualise.py`), not with the `UnsupportedOperationError` named by the
claim. -/
theorem capability_check_error_class_counterexample :
    angle_choice false angle_info_w [] [1] 100 500 none
        = .error .assertionError ∧
    angle_choice false angle_info_w [] [1] 100 500 none
        ≠ .error .unsupportedOperationError := by
  refine ⟨rfl, fun h => ?_⟩
  rw [show angle_choice false angle_info_w [] [1] 100 500 none
      = .error .assertionError from rfl] at h
  exact PyError.noConfusion (Except.error.inj h)

/-- C2 amended: for every sample that lacks the capability required by a
search driver (`VariableAngle` for `angle_choice`, `VariableContrast` for
`contrast_choice_single`, `VariableUnderlayer` for `underlayer_choice`), the
driver fails with an `AssertionError` before any candidate design point is
evaluated (the result is the same error for every candidate range); the
missing capability is never silently skipped. -/
theorem capability_check_fails_fast
    (angle_info contrast_info : List AngleConfig → List ℚ → FisherResult)
    (underlayer_info : List AngleConfig → List ℚ → List (ℚ × ℚ) → FisherResult)
    (initial_angle_times angle_times : List AngleConfig)
    (angle_range contrast_range initial_contrasts thickness_range sld_range
      contrasts2 : List ℚ)
    (points_new : ℕ) (time_new : ℚ) (contrasts : Option (List ℚ)) :
    angle_choice false angle_info initial_angle_times angle_range points_new
        time_new contrasts = .error .assertionError ∧
    contrast_choice_single false contrast_info contrast_range initial_contrasts
        angle_times = .error .assertionError ∧
    underlayer_choice false underlayer_info thickness_range sld_range contrasts2
        angle_times = .error .assertionError :=
  ⟨rfl, rfl, rfl⟩

/-- Unfolding equation of `combinations2` on a cons cell. -/
theorem combinations2_cons (a : ℚ) (rest : List ℚ) :
    combinations2 (a :: rest)
      = rest.map (fun b => (a, b)) ++ combinations2 rest :=
  rfl

/-- Both members of an enumerated pair come from the candidate list. -/
theorem combinations2_mem {p : ℚ × ℚ} :
    ∀ {l : List ℚ}, p ∈ combinations2 l → p.1 ∈ l ∧ p.2 ∈ l := by
  intro l
  induction l with
  | nil => intro hp; simp [combinations2] at hp
  | cons a rest ih =>
    intro hp
    rw [combinations2_cons] at hp
    rcases List.mem_append.mp hp with h | h
    · obtain ⟨b, hb, he⟩ := List.mem_map.mp h
      rw [← he]
      exact ⟨List.mem_cons_self a rest, List.mem_cons_of_mem a hb⟩
    · obtain ⟨h1, h2⟩ := ih h
      exact ⟨List.mem_cons_of_mem a h1, List.mem_cons_of_mem a h2⟩

/-- Without duplicate candidates there are no self-pairs. -/
theorem combinations2_ne :
    ∀ {l : List ℚ}, l.Nodup → ∀ p ∈ combinations2 l, p.1 ≠ p.2 := by
  intro l
  induction l with
  | nil => intro _ p hp; simp [combinations2] at hp
  | cons a rest ih =>
    intro hnd p hp
    rw [List.nodup_cons] at hnd
    rw [combinations2_cons] at hp
    rcases List.mem_append.mp hp with h | h
    · obtain ⟨b, hb, he⟩ := List.mem_map.mp h
      rw [← he]
      intro hab
      simp only at hab
      exact hnd.1 (hab ▸ hb)
    · exact ih hnd.2 p h

/-- Without duplicate candidates no pair is enumerated twice. -/
theorem combinations2_nodup :
    ∀ {l : List ℚ}, l.Nodup → (combinations2 l).Nodup := by
  intro l
  induction l with
  | nil => intro _; simp [combinations2]
  | cons a rest ih =>
    intro hnd
    rw [List.nodup_cons] at hnd
    rw [combinations2_cons]
    refine List.Nodup.append ?_ (ih hnd.2) ?_
    · exact hnd.2.map fun x y hxy => (Prod.mk.injEq a x a y ▸ hxy).2
    · intro p hp1 hp2
      obtain ⟨b, _, he⟩ := List.mem_map.mp hp1
      have h1 := (combinations2_mem hp2).1
      rw [← he] at h1
      exact hnd.1 h1

/-- Every unordered pair of distinct candidates is enumerated in one of its
two orientations. -/
theorem combinations2_complete :
    ∀ {l : List ℚ} {a b : ℚ}, a ∈ l → b ∈ l → a ≠ b →
      (a, b) ∈ combinations2 l ∨ (b, a) ∈ combinations2 l := by
  intro l
  induction l with
  | nil => intro a b ha _ _; simp at ha
  | cons c rest ih =>
    intro a b ha hb hab
    rcases List.mem_cons.mp ha with rfl | ha2
    · have hbr : b ∈ rest := by
        rcases List.mem_cons.mp hb with rfl | h
        · exact absurd rfl hab
        · exact h
      exact Or.inl (by rw [combinations2_cons]
                       exact List.mem_append_left _
                         (List.mem_map.mpr ⟨b, hbr, rfl⟩))
    · rcases List.mem_cons.mp hb with rfl | hb2
      · exact Or.inr (by rw [combinations2_cons]
                         exact List.mem_append_left _
                           (List.mem_map.mpr ⟨a, ha2, rfl⟩))
      · rcases ih ha2 hb2 hab with h | h
        · exact Or.inl (by rw [combinations2_cons]
                           exact List.mem_append_right _ h)
        · exact Or.inr (by rw [combinations2_cons]
                           exact List.mem_append_right _ h)

/-- Without duplicate candidates, at most one orientation of a pair is
enumerated. -/
theorem combinations2_antisymm :
    ∀ {l : List ℚ}, l.Nodup → ∀ {a b : ℚ},
      (a, b) ∈ combinations2 l → (b, a) ∉ combinations2 l := by
  intro l
  induction l with
  | nil => intro _ a b hab; simp [combinations2] at hab
  | cons c rest ih =>
    intro hnd a b hab hba
    rw [List.nodup_cons] at hnd
    rw [combinations2_cons] at hab hba
    rcases List.mem_append.mp hab with h1 | h1
    · obtain ⟨x, hx, he⟩ := List.mem_map.mp h1
      have hca : c = a := congrArg Prod.fst he
      rcases List.mem_append.mp hba with h2 | h2
      · obtain ⟨y, hy, he2⟩ := List.mem_map.mp h2
        have hya : y = a := congrArg Prod.snd he2
        exact hnd.1 (hca ▸ hya ▸ hy)
      · have h3 := (combinations2_mem h2).2
        exact hnd.1 (hca ▸ h3)
    · rcases List.mem_append.mp hba with h2 | h2
      · obtain ⟨y, hy, he2⟩ := List.mem_map.mp h2
        have hcb : c = b := congrArg Prod.fst he2
        have h3 := (combinations2_mem h1).2
        exact hnd.1 (hcb ▸ h3)
      · exact ih hnd.2 h1 h2

/-- A candidate list of length at least two yields at least one pair. -/
theorem combinations2_ne_nil :
    ∀ {l : List ℚ}, 2 ≤ l.length → combinations2 l ≠ [] := by
  intro l h
  match l, h with
  | a :: b :: t, _ => simp [combinations2_cons]

/-- Success case of `contrast_choice_double`: the returned pair is the
enumerated pair at the first argmax of the per-pair scalars (the duplicated
plotting data does not change the argmax). -/
theorem contrast_choice_double_ok
    (contrast_info : List AngleConfig → List ℚ → FisherResult)
    (contrast_range : List ℚ) (angle_times : List AngleConfig)
    (hne : combinations2 contrast_range ≠ []) :
    contrast_choice_double true contrast_info contrast_range angle_times
      = .ok ((combinations2 contrast_range).getD
          (argmaxList ((combinations2 contrast_range).map fun pair =>
            (contrast_info angle_times [pair.1, pair.2]).min_eigenval))
          (0, 0)) := by
  set pairs := combinations2 contrast_range with hpairs
  set eigs := pairs.map (fun pair =>
    (contrast_info angle_times [pair.1, pair.2]).min_eigenval) with heigs
  have hene : eigs ≠ [] := fun h0 =>
    hne (List.length_eq_zero.mp (by simpa [heigs] using congrArg List.length h0))
  obtain ⟨hk, -, -⟩ := isFirstArgmax_argmaxList eigs hene
  have hklen : argmaxList eigs < pairs.length := by
    simpa [heigs] using hk
  rw [contrast_choice_double]
  simp only [if_true]
  rw [← hpairs, ← heigs]
  rw [if_neg (by simpa [List.isEmpty_iff] using
    (fun h0 => hene (List.append_eq_nil.mp h0).1 : eigs ++ eigs ≠ []))]
  rw [argmaxList_append_self hene]
  rw [List.getD_append _ _ _ _ (by simpa using hklen),
      List.getD_append _ _ _ _ (by simpa using hklen),
      getD_map_eq Prod.fst pairs _ 0 hklen,
      getD_map_eq Prod.snd pairs _ 0 hklen,
      List.getD_eq_getElem pairs (0, 0) hklen]
  rfl

/-- C3: over a duplicate-free finite candidate contrast set,
`contrast_choice_double` enumerates exactly the unique unordered pairs of
distinct candidates (no repeats, no self-pairs, at most one orientation per
pair, and every unordered pair in some orientation); under the spec-modelled
additive `contrast_info` the scalar of `(a, b)` equals the scalar of
`(b, a)`; and the returned pair is an enumerated pair whose scalar is
greater than or equal to that of every enumerated pair. -/
theorem contrast_choice_double_pairs {M : Type} [AddCommMonoid M]
    (contribution : ℚ → M) (min_eig : M → ℚ)
    (contrast_range : List ℚ) (angle_times : List AngleConfig)
    (hnd : contrast_range.Nodup) (hlen : 2 ≤ contrast_range.length) :
    (combinations2 contrast_range).Nodup ∧
    (∀ p ∈ combinations2 contrast_range,
      p.1 ∈ contrast_range ∧ p.2 ∈ contrast_range ∧ p.1 ≠ p.2 ∧
        (p.2, p.1) ∉ combinations2 contrast_range) ∧
    (∀ a b, a ∈ contrast_range → b ∈ contrast_range → a ≠ b →
      (a, b) ∈ combinations2 contrast_range ∨
        (b, a) ∈ combinations2 contrast_range) ∧
    (∀ a b : ℚ,
      (contrast_info_spec contribution min_eig angle_times [a, b]).min_eigenval
        = (contrast_info_spec contribution min_eig angle_times
            [b, a]).min_eigenval) ∧
    ∃ k, ∃ hk : k < (combinations2 contrast_range).length,
      contrast_choice_double true (contrast_info_spec contribution min_eig)
          contrast_range angle_times
        = .ok ((combinations2 contrast_range).get ⟨k, hk⟩) ∧
      (combinations2 contrast_range).get ⟨k, hk⟩
          ∈ combinations2 contrast_range ∧
      ∀ p ∈ combinations2 contrast_range,
        (contrast_info_spec contribution min_eig angle_times
            [p.1, p.2]).min_eigenval
          ≤ (contrast_info_spec contribution min_eig angle_times
              [((combinations2 contrast_range).get ⟨k, hk⟩).1,
               ((combinations2 contrast_range).get ⟨k, hk⟩).2]).min_eigenval := by
  refine ⟨combinations2_nodup hnd, ?_, ?_, ?_, ?_⟩
  · intro p hp
    obtain ⟨h1, h2⟩ := combinations2_mem hp
    refine ⟨h1, h2, combinations2_ne hnd p hp, ?_⟩
    exact combinations2_antisymm hnd (by simpa using hp)
  · intro a b ha hb hab
    exact combinations2_complete ha hb hab
  · intro a b
    simp [contrast_info_spec, add_comm]
  · set pairs := combinations2 contrast_range with hpairs
    set eigs := pairs.map (fun pair =>
      (contrast_info_spec contribution min_eig angle_times
        [pair.1, pair.2]).min_eigenval) with heigs
    have hpne : pairs ≠ [] := combinations2_ne_nil hlen
    have hene : eigs ≠ [] := fun h0 =>
      hpne (List.length_eq_zero.mp
        (by simpa [heigs] using congrArg List.length h0))
    obtain ⟨hk, hmax, -⟩ := isFirstArgmax_argmaxList eigs hene
    have hklen : argmaxList eigs < pairs.length := by
      simpa [heigs] using hk
    have hgd : ∀ i, ∀ hi : i < pairs.length,
        eigs.getD i 0
          = (contrast_info_spec contribution min_eig angle_times
              [(pairs.get ⟨i, hi⟩).1, (pairs.get ⟨i, hi⟩).2]).min_eigenval := by
      intro i hi
      rw [heigs, getD_map_eq _ pairs i 0 hi]
    refine ⟨argmaxList eigs, hklen, ?_, List.get_mem _ _ _, ?_⟩
    · rw [contrast_choice_double_ok _ _ _ hpne]
      rw [← hpairs, ← heigs, List.getD_eq_getElem pairs (0, 0) hklen]
      rfl
    · intro p hp
      obtain ⟨i, hig⟩ := List.mem_iff_get.mp hp
      have h1 := hmax i.1 (by simp [heigs])
      rw [hgd i.1 i.2, hgd (argmaxList eigs) hklen] at h1
      rw [← hig]
      exact h1

/-- C3 witness: the theorem applied to the concrete candidate set
`[1, 2, 4]` with the identity matrix abstraction over `ℚ`. -/
theorem contrast_choice_double_pairs_witness :
    ([1, 2, 4] : List ℚ).Nodup ∧ 2 ≤ ([1, 2, 4] : List ℚ).length ∧
    ((combinations2 [1, 2, 4]).Nodup ∧
    (∀ p ∈ combinations2 [1, 2, 4],
      p.1 ∈ ([1, 2, 4] : List ℚ) ∧ p.2 ∈ ([1, 2, 4] : List ℚ) ∧ p.1 ≠ p.2 ∧
        (p.2, p.1) ∉ combinations2 [1, 2, 4]) ∧
    (∀ a b, a ∈ ([1, 2, 4] : List ℚ) → b ∈ ([1, 2, 4] : List ℚ) → a ≠ b →
      (a, b) ∈ combinations2 [1, 2, 4] ∨ (b, a) ∈ combinations2 [1, 2, 4]) ∧
    (∀ a b : ℚ,
      (contrast_info_spec (fun c : ℚ => c) (fun m : ℚ => m) []
          [a, b]).min_eigenval
        = (contrast_info_spec (fun c : ℚ => c) (fun m : ℚ => m) []
            [b, a]).min_eigenval) ∧
    ∃ k, ∃ hk : k < (combinations2 [1, 2, 4]).length,
      contrast_choice_double true
          (contrast_info_spec (fun c : ℚ => c) (fun m : ℚ => m)) [1, 2, 4] []
        = .ok ((combinations2 [1, 2, 4]).get ⟨k, hk⟩) ∧
      (combinations2 [1, 2, 4]).get ⟨k, hk⟩ ∈ combinations2 [1, 2, 4] ∧
      ∀ p ∈ combinations2 [1, 2, 4],
        (contrast_info_spec (fun c : ℚ => c) (fun m : ℚ => m) []
            [p.1, p.2]).min_eigenval
          ≤ (contrast_info_spec (fun c : ℚ => c) (fun m : ℚ => m) []
              [((combinations2 [1, 2, 4]).get ⟨k, hk⟩).1,
               ((combinations2 [1, 2, 4]).get ⟨k, hk⟩).2]).min_eigenval) :=
  ⟨by decide, by decide,
   contrast_choice_double_pairs (fun c : ℚ => c) (fun m : ℚ => m) [1, 2, 4] []
     (by decide) (by decide)⟩

/-- Membership in the iteration grid of `underlayer_choice` is exactly
membership in the cartesian product of the two ranges. -/
theorem mem_underlayer_grid (thickness_range sld_range : List ℚ)
    (p : ℚ × ℚ) :
    p ∈ underlayer_grid thickness_range sld_range
      ↔ p.1 ∈ thickness_range ∧ p.2 ∈ sld_range := by
  rw [underlayer_grid]
  constructor
  · intro hp
    obtain ⟨t, ht, hm⟩ := List.mem_flatMap.mp hp
    obtain ⟨s, hs, he⟩ := List.mem_map.mp hm
    rw [← he]
    exact ⟨ht, hs⟩
  · intro ⟨h1, h2⟩
    exact List.mem_flatMap.mpr ⟨p.1, h1, List.mem_map.mpr ⟨p.2, h2, rfl⟩⟩

/-- C4: for non-empty thickness and SLD ranges, `underlayer_choice` iterates
over exactly the cartesian product of the two ranges (all other design
choices — `contrasts` and `angle_times` — are the same fixed arguments of
every `underlayer_info` call), and returns a combination from the enumerated
product whose scalar is greater than or equal to every other enumerated
combination's scalar. -/
theorem underlayer_choice_max_min_eig
    (underlayer_info : List AngleConfig → List ℚ → List (ℚ × ℚ) → FisherResult)
    (thickness_range sld_range : List ℚ) (contrasts : List ℚ)
    (angle_times : List AngleConfig)
    (hthick : thickness_range ≠ []) (hsld : sld_range ≠ []) :
    (∀ p : ℚ × ℚ, p ∈ underlayer_grid thickness_range sld_range
        ↔ p.1 ∈ thickness_range ∧ p.2 ∈ sld_range) ∧
    ∃ k, ∃ hk : k < (underlayer_grid thickness_range sld_range).length,
      underlayer_choice true underlayer_info thickness_range sld_range
          contrasts angle_times
        = .ok ((underlayer_grid thickness_range sld_range).get ⟨k, hk⟩) ∧
      ((underlayer_grid thickness_range sld_range).get ⟨k, hk⟩).1
          ∈ thickness_range ∧
      ((underlayer_grid thickness_range sld_range).get ⟨k, hk⟩).2
          ∈ sld_range ∧
      ∀ thick sld, thick ∈ thickness_range → sld ∈ sld_range →
        (underlayer_info angle_times contrasts [(thick, sld)]).min_eigenval
          ≤ (underlayer_info angle_times contrasts
              [(underlayer_grid thickness_range sld_range).get ⟨k, hk⟩]).min_eigenval := by
  refine ⟨mem_underlayer_grid thickness_range sld_range, ?_⟩
  set grid := underlayer_grid thickness_range sld_range with hgrid
  set eigs := grid.map (fun p =>
    (underlayer_info angle_times contrasts [p]).min_eigenval) with heigs
  have hgne : grid ≠ [] := by
    obtain ⟨t, ht⟩ := List.exists_mem_of_ne_nil thickness_range hthick
    obtain ⟨s, hs⟩ := List.exists_mem_of_ne_nil sld_range hsld
    intro h0
    have hmem := (mem_underlayer_grid thickness_range sld_range (t, s)).mpr
      ⟨ht, hs⟩
    rw [← hgrid, h0] at hmem
    simp at hmem
  have hene : eigs ≠ [] := fun h0 =>
    hgne (List.length_eq_zero.mp
      (by simpa [heigs] using congrArg List.length h0))
  obtain ⟨hk, hmax, -⟩ := isFirstArgmax_argmaxList eigs hene
  have hklen : argmaxList eigs < grid.length := by
    simpa [heigs] using hk
  have hgd : ∀ i, ∀ hi : i < grid.length,
      eigs.getD i 0
        = (underlayer_info angle_times contrasts
            [grid.get ⟨i, hi⟩]).min_eigenval := by
    intro i hi
    rw [heigs, getD_map_eq _ grid i 0 hi]
  have hmem := (List.get_mem grid (argmaxList eigs) hklen)
  have hprod := (mem_underlayer_grid thickness_range sld_range _).mp hmem
  refine ⟨argmaxList eigs, hklen, ?_, hprod.1, hprod.2, ?_⟩
  · rw [underlayer_choice]
    simp only [if_true]
    rw [← hgrid, ← heigs]
    rw [if_neg (by simpa [List.isEmpty_iff] using hene)]
    rw [getD_map_eq Prod.fst grid _ 0 hklen,
        getD_map_eq Prod.snd grid _ 0 hklen]
  · intro thick sld ht hs
    have hpmem : (thick, sld) ∈ grid := by
      rw [hgrid]
      exact (mem_underlayer_grid thickness_range sld_range (thick, sld)).mpr
        ⟨ht, hs⟩
    obtain ⟨i, hig⟩ := List.mem_iff_get.mp hpmem
    have h1 := hmax i.1 (by simp [heigs])
    rw [hgd i.1 i.2, hgd (argmaxList eigs) hklen] at h1
    rw [hig] at h1
    exact h1

/-- C4 witness: the theorem applied to concrete two-element ranges. -/
theorem underlayer_choice_max_min_eig_witness :
    ([50, 100] : List ℚ) ≠ [] ∧ ([2, 6] : List ℚ) ≠ [] ∧
    ((∀ p : ℚ × ℚ, p ∈ underlayer_grid [50, 100] [2, 6]
        ↔ p.1 ∈ ([50, 100] : List ℚ) ∧ p.2 ∈ ([2, 6] : List ℚ)) ∧
    ∃ k, ∃ hk : k < (underlayer_grid [50, 100] [2, 6]).length,
      underlayer_choice true underlayer_info_w [50, 100] [2, 6] [] []
        = .ok ((underlayer_grid [50, 100] [2, 6]).get ⟨k, hk⟩) ∧
      ((underlayer_grid [50, 100] [2, 6]).get ⟨k, hk⟩).1
          ∈ ([50, 100] : List ℚ) ∧
      ((underlayer_grid [50, 100] [2, 6]).get ⟨k, hk⟩).2
          ∈ ([2, 6] : List ℚ) ∧
      ∀ thick sld, thick ∈ ([50, 100] : List ℚ) → sld ∈ ([2, 6] : List ℚ) →
        (underlayer_info_w [] [] [(thick, sld)]).min_eigenval
          ≤ (underlayer_info_w [] []
              [(underlayer_grid [50, 100] [2, 6]).get ⟨k, hk⟩]).min_eigenval) :=
  ⟨by decide, by decide,
   underlayer_choice_max_min_eig underlayer_info_w [50, 100] [2, 6] [] []
     (by decide) (by decide)⟩

/-- The inner sweep of `scan_parameters` only ever writes the store at the
scanned parameter's index. -/
theorem scan_step_foldl_update (fisher_min_eig : (ℕ → ℚ) → ℚ) (i : ℕ) :
    ∀ (range : List ℚ) (es : List ℚ) (s : ℕ → ℚ) (w : ℚ),
      Function.update
        ((range.foldl (scan_step fisher_min_eig i) (es, s)).2) i w
        = Function.update s i w := by
  intro range
  induction range with
  | nil => intro es s w; rfl
  | cons v rest ih =>
    intro es s w
    rw [List.foldl_cons]
    rw [show scan_step fisher_min_eig i (es, s) v
        = (es ++ [fisher_min_eig (Function.update s i v)],
           Function.update s i v) from rfl]
    rw [ih]
    simp [Function.update_idem]

/-- Processing one parameter leaves the store exactly as it was: the final
`param.value = old_value` write undoes the sweep. -/
theorem scan_one_param_restores (fisher_min_eig : (ℕ → ℚ) → ℚ)
    (p : ParamSpec) (store : ℕ → ℚ) :
    (scan_one_param fisher_min_eig p store).2 = store := by
  rw [scan_one_param]
  simp only
  rw [scan_step_foldl_update fisher_min_eig p.id (linspace p.lb p.ub 100) []
    store (store p.id)]
  exact Function.update_eq_self p.id store

/-- C5: after `scan_parameters` returns, every parameter in the given list
has the value it had before the call — the whole parameter store is
unchanged — even though each scanned parameter is mutated during the
sweep. -/
theorem scan_parameters_restores (fisher_min_eig : (ℕ → ℚ) → ℚ)
    (params : List ParamSpec) (store : ℕ → ℚ) :
    (scan_parameters fisher_min_eig params store).2 = store := by
  rw [scan_parameters]
  suffices h : ∀ (ps : List ParamSpec) (acc : List (List ℚ) × List (List ℚ))
      (s : ℕ → ℚ),
      (ps.foldl
        (fun acc p =>
          let r := scan_one_param fisher_min_eig p acc.2
          ((acc.1.1 ++ [r.1.1], acc.1.2 ++ [r.1.2]), r.2))
        (acc, s)).2 = s by
    exact h params ([], []) store
  intro ps
  induction ps with
  | nil => intro acc s; rfl
  | cons p rest ih =>
    intro acc s
    rw [List.foldl_cons]
    simp only
    rw [scan_one_param_restores fisher_min_eig p s]
    exact ih _ s

/-- C6 counterexample: on an input that is neither a refnx structure nor a
Refl1D stack (the tests use `Mock(spec=None)`), `Sample.__vary_structure`
raises `RuntimeError('invalid structure given')`, which is not the
`ConfigurationError` named by the claim. -/
theorem invalid_structure_error_class_counterexample :
    Sample.vary_structure PyStructure.other (1 / 5)
        = .error (.runtimeError "invalid structure given") ∧
    Sample.vary_structure PyStructure.other (1 / 5)
        ≠ .error .configurationError := by
  refine ⟨rfl, fun h => ?_⟩
  rw [show Sample.vary_structure PyStructure.other (1 / 5)
      = .error (.runtimeError "invalid structure given") from rfl] at h
  exact PyError.noConfusion (Except.error.inj h)

/-- C6 amended: for every input that is neither a refnx structure nor a
Refl1D stack, the three structure-consuming operations
(`Sample.__vary_structure`, `Sample._get_sld_profile`,
`Sample._get_reflectivity_profile`) fail with
`RuntimeError('invalid structure given')`. -/
theorem invalid_structure_runtime_error {ModelT : Type}
    (struct : PyStructure)
    (h1 : ∀ layers, struct ≠ PyStructure.refnx layers)
    (h2 : ∀ layers, struct ≠ PyStructure.refl1d layers)
    (bound_size : ℚ)
    (refnx_sld_profile : List RefnxLayer → List ℚ × List ℚ)
    (refl1d_smooth_profile : List Refl1dLayer → List ℚ × List ℚ)
    (geomspace : ℚ → ℚ → ℕ → List ℚ)
    (refnx_reflect_model : List RefnxLayer → ℚ → ℚ → ℚ → ModelT)
    (refl1d_experiment : List Refl1dLayer → List ℚ → ℚ → ℚ → ℚ → ModelT)
    (reflectivity : List ℚ → ModelT → List ℚ)
    (q_min q_max : ℚ) (points : ℕ) (scale bkg dq : ℚ) :
    Sample.vary_structure struct bound_size
        = .error (.runtimeError "invalid structure given") ∧
    Sample.get_sld_profile refnx_sld_profile refl1d_smooth_profile struct
        = .error (.runtimeError "invalid structure given") ∧
    Sample.get_reflectivity_profile geomspace refnx_reflect_model
        refl1d_experiment reflectivity struct q_min q_max points scale bkg dq
        = .error (.runtimeError "invalid structure given") := by
  match struct with
  | .refnx layers => exact absurd rfl (h1 layers)
  | .refl1d layers => exact absurd rfl (h2 layers)
  | .other => exact ⟨rfl, rfl, rfl⟩

/-- C6 witness: the amended theorem applied to the concrete invalid input
`PyStructure.other` with trivial collaborators. -/
theorem invalid_structure_runtime_error_witness :
    (∀ layers, PyStructure.other ≠ PyStructure.refnx layers) ∧
    (∀ layers, PyStructure.other ≠ PyStructure.refl1d layers) ∧
    (Sample.vary_structure PyStructure.other (1 / 5)
        = .error (.runtimeError "invalid structure given") ∧
    Sample.get_sld_profile (fun _ => ([], [])) (fun _ => ([], []))
        PyStructure.other
        = .error (.runtimeError "invalid structure given") ∧
    Sample.get_reflectivity_profile (fun _ _ _ => []) (fun _ _ _ _ => ())
        (fun _ _ _ _ _ => ()) (fun _ _ => []) PyStructure.other
        (1 / 200) (2 / 5) 500 1 (1 / 10000000) 2
        = .error (.runtimeError "invalid structure given")) :=
  ⟨fun _ h => PyStructure.noConfusion h,
   fun _ h => PyStructure.noConfusion h,
   invalid_structure_runtime_error PyStructure.other
     (fun _ h => PyStructure.noConfusion h)
     (fun _ h => PyStructure.noConfusion h)
     (1 / 5) (fun _ => ([], [])) (fun _ => ([], [])) (fun _ _ _ => [])
     (fun _ _ _ _ => ()) (fun _ _ _ _ _ => ()) (fun _ _ => [])
     (1 / 200) (2 / 5) 500 1 (1 / 10000000) 2⟩

/-- C7: in the 1D scans, the plan evaluated for each candidate is the fixed
baseline plan with that candidate's configuration appended as the last
element (`angle_choice` appends `(angle_new, points_new, time_new)` to
`initial_angle_times`; `contrast_choice_single` appends the candidate SLD to
`initial_contrasts`), and the scalars are computed by mapping over exactly
these plans; the baseline lists themselves are separate values, left
unchanged. -/
theorem scan_plan_appends_candidate
    (angle_info contrast_info : List AngleConfig → List ℚ → FisherResult)
    (initial_angle_times angle_times : List AngleConfig)
    (points_new : ℕ) (time_new : ℚ) (contrasts : List ℚ)
    (angle_range contrast_range initial_contrasts : List ℚ)
    (angle_new c_new : ℚ) :
    (new_angle_times initial_angle_times points_new time_new
        angle_new).dropLast = initial_angle_times ∧
    (new_angle_times initial_angle_times points_new time_new
        angle_new).getLast?
        = some ⟨angle_new, points_new, time_new⟩ ∧
    angle_scan_eigs angle_info initial_angle_times points_new time_new
        contrasts angle_range
        = angle_range.map (fun a =>
            (angle_info (initial_angle_times ++ [⟨a, points_new, time_new⟩])
              contrasts).min_eigenval) ∧
    (new_contrasts initial_contrasts c_new).dropLast = initial_contrasts ∧
    (new_contrasts initial_contrasts c_new).getLast? = some c_new ∧
    contrast_scan_eigs contrast_info angle_times initial_contrasts
        contrast_range
        = contrast_range.map (fun c =>
            (contrast_info angle_times
              (initial_contrasts ++ [c])).min_eigenval) := by
  refine ⟨?_, ?_, rfl, ?_, ?_, rfl⟩
  · rw [new_angle_times, List.dropLast_concat]
  · rw [new_angle_times, List.getLast?_concat]
  · rw [new_contrasts, List.dropLast_concat]
  · rw [new_contrasts, List.getLast?_concat]

/-- C8: for every sample structure and measurement plan, `Sample.angle_info`
returns the Fisher object built from the dataset simulated under that plan —
its Q values (column 0) and counts (column 3) — together with the sample's
varying parameters and the simulated model. -/
theorem angle_info_builds_fisher {ModelT ParamT StructureT : Type}
    (simulate : StructureT → List AngleConfig → ModelT × List DataRow)
    (struct : StructureT) (sample_params : List ParamT)
    (angle_times : List AngleConfig) (contrasts : List ℚ) :
    (Sample.angle_info simulate struct sample_params angle_times contrasts).qs
        = [(simulate struct angle_times).2.map DataRow.q] ∧
    (Sample.angle_info simulate struct sample_params angle_times
        contrasts).counts
        = [(simulate struct angle_times).2.map DataRow.counts] ∧
    (Sample.angle_info simulate struct sample_params angle_times
        contrasts).params = sample_params ∧
    (Sample.angle_info simulate struct sample_params angle_times
        contrasts).models = [(simulate struct angle_times).1] :=
  ⟨rfl, rfl, rfl, rfl⟩

/-- C9: `Sample.get_structures` always returns exactly the two-element list
of the spin-up and spin-down copies — also when the structure contains no
`MagneticLayer`, in which case both copies equal the wrapped structure — and
never the single-element fallback `[self.structure]` (that branch is dead
code). -/
theorem get_structures_spin_pair (layers : List RefnxLayer) :
    Sample.get_structures layers
        = [spin_up_structure layers, spin_down_structure layers] ∧
    (Sample.get_structures layers).length = 2 ∧
    Sample.get_structures layers ≠ [layers] ∧
    ((∀ l ∈ layers, l.isMagnetic = false) →
      Sample.get_structures layers = [layers, layers]) := by
  have h1 : Sample.get_structures layers
      = [spin_up_structure layers, spin_down_structure layers] := rfl
  refine ⟨h1, by rw [h1]; rfl, ?_, ?_⟩
  · intro h
    rw [h1] at h
    have h2 := congrArg List.length h
    simp at h2
  · intro hnm
    have hup : spin_up_structure layers = layers := by
      rw [spin_up_structure]
      rw [List.map_congr_left fun a ha => by rw [hnm a ha]]
      exact List.map_id layers
    have hdown : spin_down_structure layers = layers := by
      rw [spin_down_structure]
      rw [List.map_congr_left fun a ha => by rw [hnm a ha]]
      exact List.map_id layers
    rw [h1, hup, hdown]

/-- C9 witness: the theorem applied to a one-slab structure without magnetic
layers. -/
theorem get_structures_spin_pair_witness :
    Sample.get_structures [RefnxLayer.slab ⟨"Layer 1", 4, 0, 100, 2⟩]
        = [[RefnxLayer.slab ⟨"Layer 1", 4, 0, 100, 2⟩],
           [RefnxLayer.slab ⟨"Layer 1", 4, 0, 100, 2⟩]] ∧
    (Sample.get_structures [RefnxLayer.slab ⟨"Layer 1", 4, 0, 100, 2⟩]).length
        = 2 ∧
    Sample.get_structures [RefnxLayer.slab ⟨"Layer 1", 4, 0, 100, 2⟩]
        ≠ [[RefnxLayer.slab ⟨"Layer 1", 4, 0, 100, 2⟩]] := by
  obtain ⟨h1, h2, h3, h4⟩ :=
    get_structures_spin_pair [RefnxLayer.slab ⟨"Layer 1", 4, 0, 100, 2⟩]
  exact ⟨h4 (by decide), h2, h3⟩

/-- Folding the `|` prepend over components starting from an existing stack
prepends the reversed converted components. -/
theorem foldl_stack_refl1d :
    ∀ (l : List RefnxLayer) (acc : List Refl1dLayer),
      l.foldl refl1d_stack_step (.stack acc)
        = .stack ((l.map refl1d_of_refnx).reverse ++ acc) := by
  intro l
  induction l with
  | nil => intro acc; rfl
  | cons a rest ih =>
    intro acc
    rw [List.foldl_cons]
    rw [show refl1d_stack_step (.stack acc) a
        = .stack (refl1d_of_refnx a :: acc) from rfl]
    rw [ih]
    simp

/-- A refnx structure with at least one component after the fronting medium
converts to a Refl1D stack: the reversed converted components with the `Air`
material last. -/
theorem to_refl1d_cons2 (first second : RefnxLayer)
    (rest : List RefnxLayer) :
    Sample.to_refl1d (first :: second :: rest)
      = .stack (((second :: rest).map refl1d_of_refnx).reverse
          ++ [⟨"Air", 0, 0, 0, 0⟩]) := by
  rw [Sample.to_refl1d]
  rw [show (first :: second :: rest).drop 1 = second :: rest from rfl]
  rw [List.foldl_cons]
  rw [show refl1d_stack_step (.material ⟨"Air", 0, 0, 0, 0⟩) second
      = .stack [refl1d_of_refnx second, ⟨"Air", 0, 0, 0, 0⟩] from rfl]
  rw [foldl_stack_refl1d]
  simp

/-- The appending fold of `to_refnx` produces the accumulator followed by
the converted components in order. -/
theorem foldl_append_refnx :
    ∀ (l : List Refl1dLayer) (acc : List RefnxLayer),
      l.foldl (fun struct c =>
        struct ++ [.slab ⟨c.name, c.rho, c.irho, c.thickness, c.interface⟩])
        acc
        = acc ++ l.map refnx_of_refl1d := by
  intro l
  induction l with
  | nil => intro acc; simp
  | cons a rest ih =>
    intro acc
    rw [List.foldl_cons, ih]
    simp [refnx_of_refl1d]

/-- Converting a refnx structure with at least one component to Refl1D and
back succeeds and yields the `Air`-fronted structure whose tail is the
converted-and-reconverted tail of the original, in order. -/
theorem to_refnx_to_refl1d_eq (first second : RefnxLayer)
    (rest : List RefnxLayer) :
    Sample.to_refnx (Sample.to_refl1d (first :: second :: rest))
      = .ok (RefnxLayer.slab ⟨"Air", 0, 0, 0, 0⟩
          :: (second :: rest).map fun c => refnx_of_refl1d (refl1d_of_refnx c)) := by
  rw [to_refl1d_cons2]
  rw [show Sample.to_refnx
      (.stack (((second :: rest).map refl1d_of_refnx).reverse
        ++ [⟨"Air", 0, 0, 0, 0⟩]))
      = .ok (to_refnx_stack
          (((second :: rest).map refl1d_of_refnx).reverse
            ++ [⟨"Air", 0, 0, 0, 0⟩])) from rfl]
  have hrev : ((((second :: rest).map refl1d_of_refnx).reverse
      ++ [(⟨"Air", 0, 0, 0, 0⟩ : Refl1dLayer)]).reverse).drop 1
      = (second :: rest).map refl1d_of_refnx := by
    rw [List.reverse_append, List.reverse_reverse]
    simp
  rw [to_refnx_stack, hrev, foldl_append_refnx, List.map_map]
  rfl

/-- C10 counterexample: the one-component refnx structure consisting of the
fronting medium alone is a refnx structure, yet the loop of `to_refl1d` over
`structure[1:]` never runs, so `self.structure` is left as the bare Refl1D
material, and the subsequent `to_refnx` fails its
`assert isinstance(self.structure, refl1d.model.Stack)` with an
`AssertionError` instead of yielding a structure with the same number of
layers. -/
theorem to_refnx_singleton_counterexample :
    Sample.to_refl1d [RefnxLayer.slab ⟨"Air", 0, 0, 0, 0⟩]
        = Refl1dStructure.material ⟨"Air", 0, 0, 0, 0⟩ ∧
    Sample.to_refnx (Sample.to_refl1d [RefnxLayer.slab ⟨"Air", 0, 0, 0, 0⟩])
        = .error .assertionError :=
  ⟨rfl, rfl⟩

/-- C10 amended: for every `Sample` whose structure is a refnx structure
with at least two components (the fronting medium plus at least one layer),
calling `to_refl1d` followed by `to_refnx` succeeds and yields a structure
with the same number of layers in the same order, where each layer after the
first keeps its name, real SLD, imaginary SLD, thickness and roughness
values. -/
theorem to_refl1d_to_refnx_roundtrip (first second : RefnxLayer)
    (rest : List RefnxLayer) :
    ∃ rt, Sample.to_refnx (Sample.to_refl1d (first :: second :: rest))
        = .ok rt ∧
      rt.length = (first :: second :: rest).length ∧
      ∀ i, 1 ≤ i → i < (first :: second :: rest).length →
        (rt.getD i (RefnxLayer.slab ⟨"", 0, 0, 0, 0⟩)).name
            = ((first :: second :: rest).getD i
                (RefnxLayer.slab ⟨"", 0, 0, 0, 0⟩)).name ∧
        (rt.getD i (RefnxLayer.slab ⟨"", 0, 0, 0, 0⟩)).sldReal
            = ((first :: second :: rest).getD i
                (RefnxLayer.slab ⟨"", 0, 0, 0, 0⟩)).sldReal ∧
        (rt.getD i (RefnxLayer.slab ⟨"", 0, 0, 0, 0⟩)).sldImag
            = ((first :: second :: rest).getD i
                (RefnxLayer.slab ⟨"", 0, 0, 0, 0⟩)).sldImag ∧
        (rt.getD i (RefnxLayer.slab ⟨"", 0, 0, 0, 0⟩)).thick
            = ((first :: second :: rest).getD i
                (RefnxLayer.slab ⟨"", 0, 0, 0, 0⟩)).thick ∧
        (rt.getD i (RefnxLayer.slab ⟨"", 0, 0, 0, 0⟩)).rough
            = ((first :: second :: rest).getD i
                (RefnxLayer.slab ⟨"", 0, 0, 0, 0⟩)).rough := by
  refine ⟨RefnxLayer.slab ⟨"Air", 0, 0, 0, 0⟩
      :: (second :: rest).map (fun c => refnx_of_refl1d (refl1d_of_refnx c)),
    to_refnx_to_refl1d_eq first second rest, by simp, ?_⟩
  intro i h1 h2
  obtain ⟨j, rfl⟩ : ∃ j, i = j + 1 := ⟨i - 1, by omega⟩
  have hj : j < (second :: rest).length := by simpa using h2
  have hL : (RefnxLayer.slab ⟨"Air", 0, 0, 0, 0⟩
      :: (second :: rest).map
        (fun c => refnx_of_refl1d (refl1d_of_refnx c))).getD
      (j + 1) (RefnxLayer.slab ⟨"", 0, 0, 0, 0⟩)
      = refnx_of_refl1d (refl1d_of_refnx ((second :: rest).get ⟨j, hj⟩)) := by
    rw [List.getD_cons_succ,
      getD_map_eq (fun c => refnx_of_refl1d (refl1d_of_refnx c))
        (second :: rest) j (RefnxLayer.slab ⟨"", 0, 0, 0, 0⟩) hj]
  have hR : (first :: second :: rest).getD (j + 1)
      (RefnxLayer.slab ⟨"", 0, 0, 0, 0⟩) = (second :: rest).get ⟨j, hj⟩ := by
    rw [List.getD_cons_succ,
      List.getD_eq_getElem (second :: rest)
        (RefnxLayer.slab ⟨"", 0, 0, 0, 0⟩) hj]
    rfl
  rw [hL, hR]
  exact ⟨rfl, rfl, rfl, rfl, rfl⟩

/-- C10 witness: the amended theorem applied to the four-layer structure of
`simple_sample` (air, two layers, substrate), checked at the first interior
layer. -/
theorem to_refl1d_to_refnx_roundtrip_witness :
    ∃ rt, Sample.to_refnx (Sample.to_refl1d
        [RefnxLayer.slab ⟨"Air", 0, 0, 0, 0⟩,
         RefnxLayer.slab ⟨"Layer 1", 4, 0, 100, 2⟩,
         RefnxLayer.slab ⟨"Layer 2", 8, 0, 150, 2⟩,
         RefnxLayer.slab ⟨"Substrate", 2047 / 1000, 0, 0, 2⟩])
        = .ok rt ∧
      rt.length = 4 ∧
      (rt.getD 1 (RefnxLayer.slab ⟨"", 0, 0, 0, 0⟩)).name = "Layer 1" ∧
      (rt.getD 1 (RefnxLayer.slab ⟨"", 0, 0, 0, 0⟩)).thick = 100 := by
  obtain ⟨rt, hok, hlen, hfield⟩ := to_refl1d_to_refnx_roundtrip
    (RefnxLayer.slab ⟨"Air", 0, 0, 0, 0⟩)
    (RefnxLayer.slab ⟨"Layer 1", 4, 0, 100, 2⟩)
    [RefnxLayer.slab ⟨"Layer 2", 8, 0, 150, 2⟩,
     RefnxLayer.slab ⟨"Substrate", 2047 / 1000, 0, 0, 2⟩]
  obtain ⟨hname, -, -, hthick, -⟩ := hfield 1 (by decide) (by decide)
  exact ⟨rt, hok, by rw [hlen]; rfl, by rw [hname]; rfl, by rw [hthick]; rfl⟩
